import Mathlib

/-!
Shallow embedding of `src/LR4.py`: a student-reference (certificate) record
type with validation, a collection with add / indexed access / CSV load and
save / filtering, and a subclass adding sorting.

Modelling conventions:
* Python exceptions are modelled by `PyError`; a method that can raise
  returns `Except PyError _`, and a method that mutates `self` is a state
  transformer returning the new collection.  `add` reports its error next
  to the unchanged collection; a failed sort leaves the list order
  unspecified, so its error branch carries no collection; inside
  `from_csv` the caught exceptions produce the returned `None` while an
  uncaught one surfaces on the `Except.error` channel.
* Python `None` is modelled by `Option.none`.  The four text fields hold
  `Option String`, the stipend holds `Option ℚ` (CSV and interactive
  construction always store a `float` there; `ℚ` stands in for IEEE floats,
  which is exact for every behaviour the program exercises: truthiness of
  `0.0`, order comparisons, and decimal text round-trip).
* A CSV file is modelled after the `csv` module's view of it: a header row
  and data rows, each a list of cell strings (the quoting/escaping layer of
  the `csv` module is invertible and is abstracted away).  `None` as a file
  argument models a path that does not exist.
-/

namespace LR4

/-- Kinds of Python exception raised by the program. -/
inductive PyError where
  | typeError
  | valueError
  | attributeError
  | indexError
  | keyError
deriving DecidableEq

/-- The `StudentReference` record: the five fields, each possibly unset (`None`).
Field names follow `_fields = ['id', 'date', 'full_name', 'stipend',
'destination']` (LR4.py line 14). -/
structure StudentReference where
  id : Option String
  date : Option String
  full_name : Option String
  stipend : Option ℚ
  destination : Option String
deriving DecidableEq

/-- The closed field set `_fields` of `StudentReference` (line 14). -/
def fieldNames : List String := ["id", "date", "full_name", "stipend", "destination"]

/-- Python truthiness of a text field: `None` and `""` are falsy. -/
def truthyS : Option String → Bool
  | none => false
  | some s => !s.isEmpty

/-- Python truthiness of the numeric stipend field: `None` and `0.0` are falsy. -/
def truthyQ : Option ℚ → Bool
  | none => false
  | some q => q != 0

/-- The guard of `StudentReference.__setattr__` (lines 22-25): once
`_initialized` is set, assigning any attribute name outside `_fields`
raises `AttributeError`; otherwise the assignment proceeds (the store
itself is `object.__setattr__`, outside the model). -/
def setattrGuard (inited : Bool) (name : String) : Except PyError Unit :=
  if !(fieldNames.contains name) && inited then .error .attributeError
  else .ok ()

/-- Model of `StudentReference.validate` (lines 33-35): raises `ValueError` unless
all five fields are truthy (`all([...])`). -/
def StudentReference.validate (r : StudentReference) : Except PyError Unit :=
  if truthyS r.id && truthyS r.date && truthyS r.full_name &&
      truthyQ r.stipend && truthyS r.destination then .ok ()
  else .error .valueError

/-- The `ReferenceCollection` class: wraps the `_data` list (line 50). -/
structure ReferenceCollection where
  data : List StudentReference
deriving DecidableEq

/-- An arbitrary Python object passed to `add`: either a `StudentReference`
or anything else (summarised by a tag, since `add` only inspects its type). -/
inductive PyObj where
  | ref (r : StudentReference)
  | nonRef (tag : String)

/-- Model of `ReferenceCollection.add` (lines 69-72): raises `TypeError` on a
non-`StudentReference` argument (leaving `_data` untouched), otherwise
appends the record.  First component: the raised exception, if any. -/
def ReferenceCollection.add (c : ReferenceCollection) (x : PyObj) :
    Option PyError × ReferenceCollection :=
  match x with
  | .ref r => (none, ⟨c.data ++ [r]⟩)
  | .nonRef _ => (some .typeError, c)

/-- Model of `ReferenceCollection.__getitem__` (lines 63-64): Python list indexing,
with negative indices counted from the end and `IndexError` out of range. -/
def ReferenceCollection.getitem (c : ReferenceCollection) (i : ℤ) :
    Except PyError StudentReference :=
  let n : ℤ := c.data.length
  let j : ℤ := if i < 0 then i + n else i
  if 0 ≤ j then
    match c.data.get? j.toNat with
    | some r => .ok r
    | none => .error .indexError
  else .error .indexError

/-! ### CSV text: Python `float(s)` and `str(x)` on stipend values

`from_csv` converts the stipend cell with `float(...)`; `save_to_csv`
writes the `float` back through the `csv` writer, which stringifies it
with `str`.  `pyFloat` models the acceptance grammar of `float` on
strings: optional surrounding whitespace, an optional sign, and either a
digit mantissa (with an optional fraction and PEP-515 underscores between
digits) with an optional `e`/`E` exponent, or the case-insensitive texts
`inf`/`infinity`/`nan`.  The non-finite texts are accepted by Python but
produce IEEE values that `ℚ` cannot represent, so `pyFloat` has no value
for them; `pyFloatNonFinite` recognises exactly those strings, and the
load theorems restrict to files without them (the boundary of the
`ℚ`-for-`float` embedding).  Digits and whitespace are modelled in their
ASCII forms (Python additionally accepts Unicode decimal digits and
Unicode whitespace).  `floatStr` prints a sign, the integer part, and the
fractional digits with a trailing `.0` for whole numbers, as `str` does
on floats in decimal notation (`str` switches to exponent notation only
beyond 1e16/1e-4, out of the model). -/

/-- Value of a decimal digit character, `none` on a non-digit. -/
def digitVal (c : Char) : Option ℕ :=
  if c.isDigit then some (c.toNat - 48) else none

/-- Reads a digit string as a natural number; `none` if any character is
not a digit.  The empty list reads as `0` (callers rule it out as needed). -/
def natOfDigits (cs : List Char) : Option ℕ :=
  cs.foldl (fun acc c => do (10 * (← acc) + (← digitVal c) : ℕ)) (some 0)

/-- Splits a character list at occurrences of a separator. -/
def splitOnChar (sep : Char) (cs : List Char) : List (List Char) :=
  cs.foldr
    (fun c acc =>
      if c = sep then [] :: acc
      else match acc with
        | g :: gs => (c :: g) :: gs
        | [] => [[c]])
    [[]]

/-- Whitespace that `float` strips around its argument (ASCII space,
tab, newline, CR, VT, FF and the separator controls 0x1c-0x1f). -/
def isPySpace (c : Char) : Bool :=
  c == ' ' || c == '\t' || c == '\n' || c == '\r' || c == '\x0b' || c == '\x0c' ||
    (28 ≤ c.toNat && c.toNat ≤ 31)

/-- Strips the whitespace `float` ignores from both ends. -/
def stripPySpaces (cs : List Char) : List Char :=
  ((cs.dropWhile isPySpace).reverse.dropWhile isPySpace).reverse

/-- Continuation of a digit group after its first digit: digits, with
single underscores allowed only between two digits (PEP 515). -/
def groupTail : List Char → Bool
  | [] => true
  | ['_'] => false
  | '_' :: c :: rest => c.isDigit && groupTail rest
  | c :: rest => c.isDigit && groupTail rest

/-- A well-formed digit group: empty, or a digit followed by digits with
single underscores between digits. -/
def groupOk : List Char → Bool
  | [] => true
  | c :: rest => c.isDigit && groupTail rest

/-- Removes the PEP-515 underscores of a validated digit group. -/
def dropUnderscores (cs : List Char) : List Char :=
  cs.filter (fun c => !(c == '_'))

/-- The mantissa of a `float` literal: digits with an optional point,
at least one digit overall. -/
def parseMantissa (cs : List Char) : Option ℚ :=
  match splitOnChar '.' cs with
  | [ip] =>
    if ip.isEmpty || !(groupOk ip) then none
    else (natOfDigits (dropUnderscores ip)).map (fun n => (n : ℚ))
  | [ip, fp] =>
    if (ip.isEmpty && fp.isEmpty) || !(groupOk ip) || !(groupOk fp) then none
    else do
      let a ← natOfDigits (dropUnderscores ip)
      let b ← natOfDigits (dropUnderscores fp)
      some ((a : ℚ) + (b : ℚ) / ((10 : ℚ) ^ (dropUnderscores fp).length))
  | _ => none

/-- The exponent of a `float` literal: an optional sign and a non-empty
digit group. -/
def parseExpPart (cs : List Char) : Option ℤ :=
  let (eneg, cs1) : Bool × List Char :=
    match cs with
    | '-' :: rest => (true, rest)
    | '+' :: rest => (false, rest)
    | l => (false, l)
  if cs1.isEmpty || !(groupOk cs1) then none
  else (natOfDigits (dropUnderscores cs1)).map
    (fun n => if eneg then -(n : ℤ) else (n : ℤ))

/-- Python `float` applied to a cell string: whitespace stripped, an
optional sign, then a finite numeric literal (mantissa and optional
exponent, case-insensitive).  The accepted non-finite texts (see the
section comment) are outside the `ℚ` embedding and yield `none` here;
`pyFloatNonFinite` marks them so theorems can exclude them. -/
def pyFloat (s : String) : Option ℚ :=
  let cs := stripPySpaces s.data
  let (neg, cs1) : Bool × List Char :=
    match cs with
    | '-' :: rest => (true, rest)
    | '+' :: rest => (false, rest)
    | l => (false, l)
  let low := cs1.map Char.toLower
  if low = "inf".data ∨ low = "infinity".data ∨ low = "nan".data then none
  else
    let mag : Option ℚ :=
      match splitOnChar 'e' low with
      | [mant] => parseMantissa mant
      | [mant, ex] => do
        let m ← parseMantissa mant
        let e ← parseExpPart ex
        some (m * (10 : ℚ) ^ e)
      | _ => none
    mag.map (fun m => if neg then -m else m)

/-- Recognises the strings `float` accepts as infinities or NaN (optional
whitespace and sign, then `inf`, `infinity` or `nan`, case-insensitive):
the inputs on which `pyFloat` cannot be faithful because `ℚ` has no
non-finite values. -/
def pyFloatNonFinite (s : String) : Bool :=
  let cs := stripPySpaces s.data
  let cs1 : List Char :=
    match cs with
    | '-' :: rest => rest
    | '+' :: rest => rest
    | l => l
  let low := cs1.map Char.toLower
  low == "inf".data || low == "infinity".data || low == "nan".data

/-- Multiplicity of the factor `p` in `n`, by fuel recursion (`n` itself
bounds the number of divisions). -/
def factCountAux (p : ℕ) : ℕ → ℕ → ℕ
  | 0, _ => 0
  | fuel + 1, n =>
    if 1 < p ∧ 1 < n ∧ p ∣ n then 1 + factCountAux p fuel (n / p)
    else 0

/-- Multiplicity of the factor `p` in `n` (0 when `p ≤ 1` or `n ≤ 1`). -/
def factCount (p n : ℕ) : ℕ := factCountAux p n n

/-- Pads a digit string with leading zeros to width `k`. -/
def padZeros (k : ℕ) (s : String) : String :=
  String.mk (List.replicate (k - s.length) '0') ++ s

/-- Python `str` on a stipend value: sign, integer part, `.`, fractional
digits (at least one, so whole numbers print as `...0`).  Exact whenever
the denominator divides a power of ten, which covers every value `str` of
a `float` can produce in decimal notation. -/
def floatStr (q : ℚ) : String :=
  let sgn : String := if q < 0 then "-" else ""
  let a := q.num.natAbs
  let k := max 1 (max (factCount 2 q.den) (factCount 5 q.den))
  let m := a * 10 ^ k / q.den
  sgn ++ toString (m / 10 ^ k) ++ "." ++ padZeros k (toString (m % 10 ^ k))

/-! ### CSV files -/

/-- A CSV file as the `csv` module presents it: a header row and data
rows of cell strings (`delimiter=';'`, UTF-8 BOM handling and quoting are
below this model). -/
structure CsvFile where
  header : List String
  rows : List (List String)
deriving DecidableEq

/-- The fixed header, also the `fieldnames` of the writer (line 109). -/
def csvHeader : List String :=
  ["№", "дата", "ФИО студента", "размер стипендии", "куда выдается справка"]

/-- Lookup `row[key]` on a `csv.DictReader` row dict.  The dict's keys
are the header names; a row shorter than the header has its missing cells
filled with the reader's `restval`, which is `None` (inner `none`), and
cells beyond the header go to the restkey and are never consulted.  A key
absent from the header raises `KeyError` (outer `none`).  (A duplicated
header name would keep its last cell in Python and its first here; the
fixed header has distinct names.) -/
def rowLookup (hdr row : List String) (key : String) : Option (Option String) :=
  (hdr.zip (row.map some ++ List.replicate (hdr.length - row.length) none)).lookup key

/-- The `StudentReference(...)` construction of `from_csv` (lines 83-89),
with the arguments evaluated in Python's order: the `row[...]` lookups
(a key missing from the header raises `KeyError`) and, fourth,
`float(row['размер стипендии'])` — which raises `TypeError` when the cell
is the `restval` `None` of a short row, and `ValueError` when the cell
text is not numeric.  A `None` text cell from a short row flows into the
record unchanged. -/
def parseRow (hdr row : List String) : Except PyError StudentReference :=
  match rowLookup hdr row "№" with
  | none => .error .keyError
  | some i =>
    match rowLookup hdr row "дата" with
    | none => .error .keyError
    | some dt =>
      match rowLookup hdr row "ФИО студента" with
      | none => .error .keyError
      | some fn =>
        match rowLookup hdr row "размер стипендии" with
        | none => .error .keyError
        | some st =>
          match st with
          | none => .error .typeError
          | some stext =>
            match pyFloat stext with
            | none => .error .valueError
            | some q =>
              match rowLookup hdr row "куда выдается справка" with
              | none => .error .keyError
              | some ds => .ok ⟨i, dt, fn, some q, ds⟩

/-- One loop body iteration of `from_csv` (lines 82-91): construct the
record from the row, then `validate()` it. -/
def loadRow (hdr row : List String) : Except PyError StudentReference :=
  match parseRow hdr row with
  | .error e => .error e
  | .ok r =>
    match r.validate with
    | .error e => .error e
    | .ok _ => .ok r

/-- The row loop of `from_csv`: the first row whose load step raises
`KeyError` or `ValueError` makes the whole load return `None` (the
`except (KeyError, ValueError)` handler, lines 92-94); any other
exception — the `TypeError` of `float(None)` on a short row — is not
caught there and propagates out of `from_csv` (modelled by the
`Except.error` channel).  Successful rows are `add`ed in order. -/
def fromCsvGo (hdr : List String) : List (List String) → ReferenceCollection →
    Except PyError (Option ReferenceCollection)
  | [], acc => .ok (some acc)
  | row :: rest, acc =>
    match loadRow hdr row with
    | .ok r => fromCsvGo hdr rest (acc.add (.ref r)).2
    | .error .keyError => .ok none
    | .error .valueError => .ok none
    | .error e => .error e

/-- Model of `ReferenceCollection.from_csv` (lines 74-98).  The argument
is the file at the given path; `none` means the path does not exist,
which the `except FileNotFoundError` handler (lines 96-98) turns into a
returned `None` (`Except.ok none`).  `Except.ok (some c)` is a loaded
collection and `Except.error e` an uncaught exception escaping the
call. -/
def ReferenceCollection.from_csv : Option CsvFile → Except PyError (Option ReferenceCollection)
  | none => .ok none
  | some f => fromCsvGo f.header f.rows ⟨[]⟩

/-- A text cell as `csv.DictWriter` writes it (`None` becomes the empty
string). -/
def cellS : Option String → String
  | none => ""
  | some s => s

/-- The stipend cell as the writer stringifies the `float` (via `str`). -/
def cellQ : Option ℚ → String
  | none => ""
  | some q => floatStr q

/-- Model of `to_dict` (lines 37-45) composed with the writer's row formatting:
the five values in the fixed `fieldnames` order. -/
def StudentReference.toRow (r : StudentReference) : List String :=
  [cellS r.id, cellS r.date, cellS r.full_name, cellQ r.stipend, cellS r.destination]

/-- Model of `ReferenceCollection.save_to_csv` (lines 100-117) as a transformer of
the file at the target path: an empty collection writes nothing (lines
102-104) and leaves the path's previous state, otherwise the header and
one row per record replace it. -/
def ReferenceCollection.save_to_csv (c : ReferenceCollection)
    (prev : Option CsvFile) : Option CsvFile :=
  if c.data.isEmpty then prev
  else some ⟨csvHeader, c.data.map StudentReference.toRow⟩

/-! ### Filtering and sorting -/

/-- The generator body of `filter_by_stipend` (lines 119-123), fully
materialised: yields the records with `item.stipend > value`; a record
whose stipend is `None` would raise `TypeError` at the comparison. -/
def filterGo (v : ℚ) : List StudentReference → Except PyError (List StudentReference)
  | [] => .ok []
  | r :: rest =>
    match r.stipend with
    | none => .error .typeError
    | some q => do
      let rest' ← filterGo v rest
      pure (if v < q then r :: rest' else rest')

/-- Model of `ReferenceCollection.filter_by_stipend` (lines 119-123): returns the
yielded records and the collection itself, which the generator never
mutates. -/
def ReferenceCollection.filter_by_stipend (c : ReferenceCollection) (v : ℚ) :
    Except PyError (List StudentReference) × ReferenceCollection :=
  (filterGo v c.data, c)

/-- The `key=lambda x: x.full_name` comparison key of `sort_by`.  The
default is never consulted: `sort_by` compares keys only under its
all-present guard (a `None` key makes the sort raise `TypeError` before
any ordering is used), and the filter/sort theorems carry the matching
presence hypotheses. -/
def nameKey (r : StudentReference) : String := r.full_name.getD ""

/-- The `key=lambda x: x.stipend` comparison key of `sort_by`, also the
stipend read by `filter_by_stipend`; as with `nameKey`, the default is
unreachable under the presence guard / hypotheses. -/
def stipendKey (r : StudentReference) : ℚ := r.stipend.getD 0

/-- Model of `EnhancedReferenceCollection.sort_by` (lines 125-131):
`list.sort(key=...)` by name or by stipend; any other field matches no
branch and `_data` is untouched.  `list.sort` compares extracted keys:
with two or more elements every element takes part in at least one
comparison (no comparison sort can place an uncompared element), and any
comparison against a `None` key raises `TypeError`; with fewer than two
elements no comparison happens.  On success the sort is stable and
in-place, modelled by the stable `List.mergeSort`.  After a `TypeError`
the list keeps its elements but in an unspecified order, so the error
branch carries no collection. -/
def EnhancedReferenceCollection.sort_by (c : ReferenceCollection)
    (field : String) : Except PyError ReferenceCollection :=
  if field = "name" then
    if 2 ≤ c.data.length ∧ ¬ c.data.all (fun r => r.full_name.isSome) = true then
      .error .typeError
    else .ok ⟨c.data.mergeSort (fun a b => nameKey a ≤ nameKey b)⟩
  else if field = "stipend" then
    if 2 ≤ c.data.length ∧ ¬ c.data.all (fun r => r.stipend.isSome) = true then
      .error .typeError
    else .ok ⟨c.data.mergeSort (fun a b => stipendKey a ≤ stipendKey b)⟩
  else .ok c

/-! ### Sample data used by witness statements -/

/-- A `StudentReference()` constructed with no arguments: every field `None`. -/
def emptyRef : StudentReference := ⟨none, none, none, none, none⟩

/-- A well-formed sample record. -/
def sampleRef : StudentReference :=
  ⟨some "1", some "01.09.2024", some "Иванов И.И.", some 1500, some "деканат"⟩

/-- A second well-formed sample record. -/
def sampleRef2 : StudentReference :=
  ⟨some "2", some "02.09.2024", some "Петров П.П.", some (1801/2 : ℚ), some "военкомат"⟩

/-- A sample CSV data row that parses and validates. -/
def sampleRowGood : List String :=
  ["1", "01.09.2024", "Иванов И.И.", "1500.0", "деканат"]

/-- A sample CSV data row whose stipend cell is not numeric. -/
def sampleRowBad : List String :=
  ["2", "02.09.2024", "Петров П.П.", "abc", "военкомат"]

/-- A sample data row with three cells: shorter than the five-column
header, so the reader fills its last two columns with `None`. -/
def sampleRowShort : List String :=
  ["1", "01.09.2024", "Иванов И.И."]

/-! ### Theorems -/

/-- C2 -- `StudentReference.validate` succeeds iff all five fields are
present and truthy; it never raises anything but the `ValueError`-kind
validation error; and a stipend of `0.0`, being falsy, always fails it. -/
theorem validate_ok_iff_truthy (r : StudentReference) :
    (r.validate = Except.ok () ↔
      (truthyS r.id = true ∧ truthyS r.date = true ∧ truthyS r.full_name = true ∧
        truthyQ r.stipend = true ∧ truthyS r.destination = true)) ∧
    (r.validate = Except.ok () ∨ r.validate = Except.error PyError.valueError) ∧
    (r.stipend = some 0 → r.validate = Except.error PyError.valueError) := by
  unfold StudentReference.validate
  by_cases h : (truthyS r.id && truthyS r.date && truthyS r.full_name &&
      truthyQ r.stipend && truthyS r.destination) = true
  · rw [if_pos h]
    simp only [Bool.and_eq_true] at h
    obtain ⟨⟨⟨⟨h1, h2⟩, h3⟩, h4⟩, h5⟩ := h
    refine ⟨⟨fun _ => ⟨h1, h2, h3, h4, h5⟩, fun _ => rfl⟩, Or.inl rfl, ?_⟩
    intro hs
    rw [hs] at h4
    simp [truthyQ] at h4
  · rw [if_neg h]
    refine ⟨⟨fun hco => by simp at hco, ?_⟩, Or.inr rfl, fun _ => rfl⟩
    rintro ⟨h1, h2, h3, h4, h5⟩
    exact (h (by simp [h1, h2, h3, h4, h5])).elim

/-- C2 witness: a record whose stipend is `0.0` fails validation. -/
theorem validate_ok_iff_truthy_witness :
    StudentReference.validate
      ⟨some "1", some "01.09.2024", some "Иванов И.И.", some 0, some "деканат"⟩ =
      Except.error PyError.valueError :=
  (validate_ok_iff_truthy _).2.2 rfl

/-- C8 -- `add` on a non-`StudentReference` argument raises `TypeError`
and leaves the collection (hence its length and contents) unchanged. -/
theorem add_nonRecord_typeError (c : ReferenceCollection) (tag : String) :
    (c.add (.nonRef tag)).1 = some PyError.typeError ∧
    (c.add (.nonRef tag)).2 = c :=
  ⟨rfl, rfl⟩

/-- C7 -- `sort_by` with any field other than `"name"` and `"stipend"` is
a silent no-op: no error is raised and `_data` is exactly unchanged. -/
theorem sort_by_unknown_field_noop (c : ReferenceCollection) (field : String)
    (h1 : field ≠ "name") (h2 : field ≠ "stipend") :
    EnhancedReferenceCollection.sort_by c field = Except.ok c := by
  unfold EnhancedReferenceCollection.sort_by
  rw [if_neg h1, if_neg h2]

/-- C7 witness: sorting by `"date"` leaves a sample collection unchanged. -/
theorem sort_by_unknown_field_noop_witness :
    EnhancedReferenceCollection.sort_by ⟨[sampleRef, sampleRef2]⟩ "date" =
      Except.ok ⟨[sampleRef, sampleRef2]⟩ :=
  sort_by_unknown_field_noop _ "date" (by decide) (by decide)

/-- C9 -- once `_initialized`, assigning any attribute name outside the
fixed `_fields` set raises the `AttributeError`-kind invalid-field error. -/
theorem setattr_outside_fields_error (name : String)
    (h : fieldNames.contains name = false) :
    setattrGuard true name = Except.error PyError.attributeError := by
  unfold setattrGuard
  rw [h]
  rfl

/-- C9 witness: assigning `grade` after construction is rejected. -/
theorem setattr_outside_fields_error_witness :
    setattrGuard true "grade" = Except.error PyError.attributeError :=
  setattr_outside_fields_error "grade" (by decide)

/-- C10 -- Python indexing on the collection: a negative index `i` with
`-n ≤ i < 0` returns the record at position `n + i` without failing, a
non-negative `i < n` returns the record at position `i`, and exactly the
indices outside `[-n, n)` raise `IndexError`. -/
theorem getitem_index_semantics (c : ReferenceCollection) (i : ℤ) :
    ((-(c.data.length : ℤ) ≤ i → i < 0 →
        ∃ r, c.data.get? (i + c.data.length).toNat = some r ∧
          c.getitem i = Except.ok r) ∧
      (0 ≤ i → i < (c.data.length : ℤ) →
        ∃ r, c.data.get? i.toNat = some r ∧ c.getitem i = Except.ok r)) ∧
    ((i < -(c.data.length : ℤ) ∨ (c.data.length : ℤ) ≤ i) →
      c.getitem i = Except.error PyError.indexError) := by
  simp only [ReferenceCollection.getitem]
  refine ⟨⟨?_, ?_⟩, ?_⟩
  · intro hlo hhi
    rw [if_pos hhi, if_pos (by omega : (0:ℤ) ≤ i + c.data.length)]
    have hbound : (i + (c.data.length : ℤ)).toNat < c.data.length := by omega
    rw [List.get?_eq_get hbound]
    exact ⟨_, rfl, rfl⟩
  · intro hlo hhi
    have : ¬ i < 0 := by omega
    rw [if_neg this, if_pos hlo]
    have hbound : i.toNat < c.data.length := by omega
    rw [List.get?_eq_get hbound]
    exact ⟨_, rfl, rfl⟩
  · intro hout
    rcases hout with hlt | hge
    · have hi : i < 0 := by omega
      rw [if_pos hi, if_neg (by omega : ¬ (0:ℤ) ≤ i + c.data.length)]
    · have hi : ¬ i < 0 := by omega
      rw [if_neg hi, if_pos (by omega : (0:ℤ) ≤ i)]
      rw [List.get?_eq_none.mpr (by omega : c.data.length ≤ i.toNat)]

/-- C10 witness: `collection[-1]` on a two-element collection returns the
last record. -/
theorem getitem_index_semantics_witness :
    ∃ r, (ReferenceCollection.mk [sampleRef, sampleRef2]).data.get?
        ((-1 : ℤ) + (ReferenceCollection.mk [sampleRef, sampleRef2]).data.length).toNat =
        some r ∧
      (ReferenceCollection.mk [sampleRef, sampleRef2]).getitem (-1) = Except.ok r :=
  (getitem_index_semantics ⟨[sampleRef, sampleRef2]⟩ (-1)).1.1 (by decide) (by decide)

/-- On a list whose stipends are all present, the generator materialises
to exactly the `>`-filtered list. -/
lemma filterGo_eq_filter (v : ℚ) (l : List StudentReference)
    (h : ∀ r ∈ l, r.stipend.isSome = true) :
    filterGo v l = Except.ok (l.filter (fun r => decide (v < stipendKey r))) := by
  induction l with
  | nil => rfl
  | cons r rest ih =>
    obtain ⟨q, hq⟩ := Option.isSome_iff_exists.mp (h r (List.mem_cons_self r rest))
    have hrest := ih (fun x hx => h x (List.mem_cons_of_mem r hx))
    have hk : stipendKey r = q := by simp [stipendKey, hq]
    simp only [filterGo, hq, hrest, List.filter_cons, hk]
    by_cases hvq : v < q
    · simp [hvq, Except.bind]
    · simp [hvq, Except.bind]

/-- C5 -- `filter_by_stipend v` yields exactly the records with stipend
strictly greater than `v`, in their original relative order, and the
collection's stored sequence is unchanged. -/
theorem filter_by_stipend_spec (c : ReferenceCollection) (v : ℚ)
    (h : ∀ r ∈ c.data, r.stipend.isSome = true) :
    (c.filter_by_stipend v).1 =
      Except.ok (c.data.filter (fun r => decide (v < stipendKey r))) ∧
    (c.filter_by_stipend v).2 = c :=
  ⟨filterGo_eq_filter v c.data h, rfl⟩

/-- C5 witness: filtering a sample two-record collection at threshold 1000. -/
theorem filter_by_stipend_spec_witness :
    (ReferenceCollection.filter_by_stipend ⟨[sampleRef, sampleRef2]⟩ 1000).1 =
      Except.ok ((ReferenceCollection.mk [sampleRef, sampleRef2]).data.filter
        (fun r => decide ((1000 : ℚ) < stipendKey r))) ∧
    (ReferenceCollection.filter_by_stipend ⟨[sampleRef, sampleRef2]⟩ 1000).2 =
      ⟨[sampleRef, sampleRef2]⟩ :=
  filter_by_stipend_spec ⟨[sampleRef, sampleRef2]⟩ 1000 (by decide)

/-- The only error `validate` raises is the `ValueError` kind. -/
lemma validate_error_kind (r : StudentReference) (e : PyError)
    (h : r.validate = Except.error e) : e = PyError.valueError := by
  unfold StudentReference.validate at h
  by_cases hc : (truthyS r.id && truthyS r.date && truthyS r.full_name &&
      truthyQ r.stipend && truthyS r.destination) = true
  · rw [if_pos hc] at h
    exact absurd h (by simp)
  · rw [if_neg hc] at h
    exact (Except.error.inj h).symm

/-- The construction step raises only `KeyError`, `ValueError` or
`TypeError`. -/
lemma parseRow_error_kinds (hdr row : List String) (e : PyError)
    (h : parseRow hdr row = Except.error e) :
    e = PyError.keyError ∨ e = PyError.valueError ∨ e = PyError.typeError := by
  unfold parseRow at h
  repeat' split at h
  all_goals simp_all

/-- The whole load step raises only `KeyError`, `ValueError` or
`TypeError`. -/
lemma loadRow_error_kinds (hdr row : List String) (e : PyError)
    (h : loadRow hdr row = Except.error e) :
    e = PyError.keyError ∨ e = PyError.valueError ∨ e = PyError.typeError := by
  unfold loadRow at h
  cases hp : parseRow hdr row with
  | error e0 =>
    rw [hp] at h
    dsimp only at h
    rw [← Except.error.inj h]
    exact parseRow_error_kinds hdr row e0 hp
  | ok r =>
    rw [hp] at h
    dsimp only at h
    cases hv : r.validate with
    | error ev =>
      rw [hv] at h
      dsimp only at h
      rw [← Except.error.inj h]
      exact Or.inr (Or.inl (validate_error_kind r ev hv))
    | ok u =>
      rw [hv] at h
      simp at h

/-- Once some row of the input fails its load step, the row loop can
never complete with a collection: depending on the error kind it returns
`None` or propagates the exception, but never `some` collection. -/
lemma fromCsvGo_no_collection_of_bad (hdr row : List String) (e : PyError)
    (hrow : loadRow hdr row = Except.error e) (rows : List (List String)) :
    ∀ acc d, row ∈ rows → fromCsvGo hdr rows acc ≠ Except.ok (some d) := by
  induction rows with
  | nil =>
    intro acc d hm
    cases hm
  | cons r rest ih =>
    intro acc d hm hcon
    rcases List.mem_cons.mp hm with heq | hmem
    · subst heq
      simp only [fromCsvGo, hrow] at hcon
      cases e <;> simp at hcon
    · cases hl : loadRow hdr r with
      | ok rr =>
        simp only [fromCsvGo, hl] at hcon
        exact ih _ d hmem hcon
      | error e2 =>
        simp only [fromCsvGo, hl] at hcon
        cases e2 <;> simp at hcon

/-- If some row fails and no row raises the uncaught `TypeError`, the
row loop returns a clean `None`. -/
lemma fromCsvGo_ok_none_of_caught (hdr : List String) (rows : List (List String)) :
    ∀ acc, (∀ row ∈ rows, loadRow hdr row ≠ Except.error PyError.typeError) →
      (∃ row ∈ rows, ∃ e, loadRow hdr row = Except.error e) →
      fromCsvGo hdr rows acc = Except.ok none := by
  induction rows with
  | nil =>
    rintro acc _ ⟨row, hm, _⟩
    cases hm
  | cons r rest ih =>
    rintro acc hnt ⟨row, hm, e, he⟩
    cases hl : loadRow hdr r with
    | ok rr =>
      simp only [fromCsvGo, hl]
      have hrowr : row ≠ r := by
        rintro rfl
        rw [hl] at he
        cases he
      have hmem : row ∈ rest := by
        rcases List.mem_cons.mp hm with h1 | h1
        · exact absurd h1 hrowr
        · exact h1
      exact ih _ (fun x hx => hnt x (List.mem_cons_of_mem r hx)) ⟨row, hmem, e, he⟩
    | error e2 =>
      have hnt2 := hnt r (List.mem_cons_self r rest)
      rcases loadRow_error_kinds hdr r e2 hl with rfl | rfl | rfl
      · simp [fromCsvGo, hl]
      · simp [fromCsvGo, hl]
      · exact absurd hl hnt2

/-- C3 amended -- abort-on-first-error holds for the errors `from_csv`
actually catches: over files without non-finite float texts (the `ℚ`
embedding boundary), once any data row fails its load step the load never
yields a collection, and when every failing row raises `KeyError` (a
column missing from the header) or `ValueError` (non-numeric stipend text
or validation failure) — never the uncaught `TypeError` of a short row —
the whole load returns a clean `None`; a non-existent path also returns
`None` instead of a fatal error. -/
theorem from_csv_abort_on_caught_errors :
    (∀ (f : CsvFile) (row : List String),
        (∀ row' ∈ f.rows, ∀ cell ∈ row', pyFloatNonFinite cell = false) →
        row ∈ f.rows →
        (∃ e, loadRow f.header row = Except.error e) →
        (∀ d, ReferenceCollection.from_csv (some f) ≠ Except.ok (some d)) ∧
        ((∀ row' ∈ f.rows, loadRow f.header row' ≠ Except.error PyError.typeError) →
          ReferenceCollection.from_csv (some f) = Except.ok none)) ∧
    ReferenceCollection.from_csv none = Except.ok none := by
  refine ⟨?_, rfl⟩
  rintro f row hnf hm ⟨e, he⟩
  constructor
  · intro d
    exact fromCsvGo_no_collection_of_bad f.header row e he f.rows ⟨[]⟩ d hm
  · intro hnt
    exact fromCsvGo_ok_none_of_caught f.header f.rows ⟨[]⟩ hnt ⟨row, hm, e, he⟩

/-- C3 counterexample -- a data row shorter than the header refutes the
original claim: the reader fills the stipend cell with `None`, so
`float(None)` raises a `TypeError` that the handler at lines 92-94 does
not catch, and `from_csv` propagates a fatal error instead of reporting
the failure by returning `None`. -/
theorem from_csv_short_row_crash_cx :
    ReferenceCollection.from_csv (some ⟨csvHeader, [sampleRowShort]⟩) =
      Except.error PyError.typeError := by
  with_unfolding_all rfl

/-- C3 witness: a file with one good row and one non-numeric-stipend row
loads as a clean `None`, not a partial one-record collection. -/
theorem from_csv_abort_on_caught_errors_witness :
    ReferenceCollection.from_csv (some ⟨csvHeader, [sampleRowGood, sampleRowBad]⟩) =
      Except.ok none :=
  (from_csv_abort_on_caught_errors.1 ⟨csvHeader, [sampleRowGood, sampleRowBad]⟩
      sampleRowBad (by decide) (by decide)
      ⟨PyError.valueError, by with_unfolding_all rfl⟩).2
    (by
      intro row' hmem heq
      simp only [List.mem_cons, List.not_mem_nil, or_false] at hmem
      rcases hmem with rfl | rfl
      · rw [show loadRow csvHeader sampleRowGood = Except.ok sampleRef by
          with_unfolding_all rfl] at heq
        simp at heq
      · rw [show loadRow csvHeader sampleRowBad = Except.error PyError.valueError by
          with_unfolding_all rfl] at heq
        simp at heq)

/-- C1 counterexample -- `add` performs no validation: the all-`None`
record `StudentReference()` is accepted by `add` (no error raised) and
lands in the collection, yet it fails `validate()`. -/
theorem add_admits_invalid_record_cx :
    ((ReferenceCollection.mk []).add (.ref emptyRef)).1 = none ∧
    ((ReferenceCollection.mk []).add (.ref emptyRef)).2 = ⟨[emptyRef]⟩ ∧
    emptyRef.validate = Except.error PyError.valueError :=
  ⟨rfl, rfl, rfl⟩

/-- A record produced by a successful load step passed `validate()`. -/
lemma validate_of_loadRow (hdr row : List String) (r : StudentReference)
    (h : loadRow hdr row = Except.ok r) : r.validate = Except.ok () := by
  unfold loadRow at h
  cases hp : parseRow hdr row with
  | error e => rw [hp] at h; cases h
  | ok r0 =>
    rw [hp] at h
    dsimp only at h
    cases hv : r0.validate with
    | error e => rw [hv] at h; cases h
    | ok u =>
      rw [hv] at h
      cases h
      cases u
      exact hv

/-- Every record accumulated by the row loop of `from_csv` is valid. -/
lemma fromCsvGo_all_valid (hdr : List String) (rows : List (List String)) :
    ∀ (acc c : ReferenceCollection),
      (∀ r ∈ acc.data, r.validate = Except.ok ()) →
      fromCsvGo hdr rows acc = Except.ok (some c) →
      ∀ r ∈ c.data, r.validate = Except.ok () := by
  induction rows with
  | nil =>
    intro acc c hacc h
    simp only [fromCsvGo, Except.ok.injEq, Option.some.injEq] at h
    subst h
    exact hacc
  | cons row rest ih =>
    intro acc c hacc h
    simp only [fromCsvGo] at h
    cases hl : loadRow hdr row with
    | error e =>
      rw [hl] at h
      cases e <;> simp at h
    | ok r =>
      rw [hl] at h
      refine ih _ c ?_ h
      intro x hx
      simp only [ReferenceCollection.add, List.mem_append, List.mem_singleton] at hx
      rcases hx with hx1 | hx2
      · exact hacc x hx1
      · subst hx2
        exact validate_of_loadRow hdr row x hl

/-- C1 amended -- `add` checks only the argument's type: it succeeds
exactly on `StudentReference` arguments and never validates, so the
"every element valid" invariant is instead guaranteed for collections
built by `from_csv`, which validates each row before adding it. -/
theorem collection_validity_amended :
    (∀ (c : ReferenceCollection) (x : PyObj),
        (c.add x).1 = none ↔ ∃ r, x = PyObj.ref r) ∧
    (∀ (f : Option CsvFile) (c : ReferenceCollection),
        ReferenceCollection.from_csv f = Except.ok (some c) →
        ∀ r ∈ c.data, r.validate = Except.ok ()) := by
  constructor
  · intro c x
    cases x with
    | ref r => exact ⟨fun _ => ⟨r, rfl⟩, fun _ => rfl⟩
    | nonRef tag =>
      constructor
      · intro h; cases h
      · rintro ⟨r, hr⟩; cases hr
  · intro f c h
    cases f with
    | none => simp [ReferenceCollection.from_csv] at h
    | some file =>
      refine fromCsvGo_all_valid file.header file.rows ⟨[]⟩ c ?_ h
      intro r hr
      cases hr

/-- C1 witness: the record loaded from a sample one-row file is valid. -/
theorem collection_validity_amended_witness :
    sampleRef.validate = Except.ok () :=
  collection_validity_amended.2 (some ⟨csvHeader, [sampleRowGood]⟩) ⟨[sampleRef]⟩
    (by with_unfolding_all rfl) sampleRef (List.mem_singleton.mpr rfl)

/-- Evaluation of `sort_by` at field `"name"` when every name is
present: the guard cannot fire and the sort succeeds. -/
lemma sort_by_name_ok (c : ReferenceCollection)
    (h : ∀ r ∈ c.data, r.full_name.isSome = true) :
    EnhancedReferenceCollection.sort_by c "name" =
      Except.ok ⟨c.data.mergeSort (fun a b => nameKey a ≤ nameKey b)⟩ := by
  unfold EnhancedReferenceCollection.sort_by
  rw [if_pos rfl, if_neg]
  rintro ⟨-, hall⟩
  exact hall (List.all_eq_true.mpr h)

/-- Evaluation of `sort_by` at field `"stipend"` when every stipend is
present. -/
lemma sort_by_stipend_ok (c : ReferenceCollection)
    (h : ∀ r ∈ c.data, r.stipend.isSome = true) :
    EnhancedReferenceCollection.sort_by c "stipend" =
      Except.ok ⟨c.data.mergeSort (fun a b => stipendKey a ≤ stipendKey b)⟩ := by
  unfold EnhancedReferenceCollection.sort_by
  rw [if_neg (by decide), if_pos rfl, if_neg]
  rintro ⟨-, hall⟩
  exact hall (List.all_eq_true.mpr h)

/-- The name-key comparison is transitive. -/
lemma nameLe_trans (a b c : StudentReference)
    (hab : decide (nameKey a ≤ nameKey b) = true)
    (hbc : decide (nameKey b ≤ nameKey c) = true) :
    decide (nameKey a ≤ nameKey c) = true := by
  simp only [decide_eq_true_eq] at *
  exact le_trans hab hbc

/-- The name-key comparison is total. -/
lemma nameLe_total (a b : StudentReference) :
    (decide (nameKey a ≤ nameKey b) || decide (nameKey b ≤ nameKey a)) = true := by
  simp only [Bool.or_eq_true, decide_eq_true_eq]
  exact le_total _ _

/-- The stipend-key comparison is transitive. -/
lemma stipendLe_trans (a b c : StudentReference)
    (hab : decide (stipendKey a ≤ stipendKey b) = true)
    (hbc : decide (stipendKey b ≤ stipendKey c) = true) :
    decide (stipendKey a ≤ stipendKey c) = true := by
  simp only [decide_eq_true_eq] at *
  exact le_trans hab hbc

/-- The stipend-key comparison is total. -/
lemma stipendLe_total (a b : StudentReference) :
    (decide (stipendKey a ≤ stipendKey b) || decide (stipendKey b ≤ stipendKey a)) = true := by
  simp only [Bool.or_eq_true, decide_eq_true_eq]
  exact le_total _ _

/-- C6 -- when the relevant keys are present (the spec's Collection
invariant; a `None` key makes the real sort raise), `sort_by "name"`
succeeds and puts `_data` in non-decreasing name order and
`sort_by "stipend"` in non-decreasing stipend order; each result is a
stable permutation of the stored sequence (any already-ordered sublist
survives in order), and each sort is idempotent. -/
theorem sort_by_spec (c : ReferenceCollection) :
    ((∀ r ∈ c.data, r.full_name.isSome = true) →
      ∃ d, EnhancedReferenceCollection.sort_by c "name" = Except.ok d ∧
        d.data.Pairwise (fun a b => nameKey a ≤ nameKey b) ∧
        d.data.Perm c.data ∧
        EnhancedReferenceCollection.sort_by d "name" = Except.ok d ∧
        (∀ sub : List StudentReference, sub.Sublist c.data →
          sub.Pairwise (fun a b => nameKey a ≤ nameKey b) →
          sub.Sublist d.data)) ∧
    ((∀ r ∈ c.data, r.stipend.isSome = true) →
      ∃ d, EnhancedReferenceCollection.sort_by c "stipend" = Except.ok d ∧
        d.data.Pairwise (fun a b => stipendKey a ≤ stipendKey b) ∧
        d.data.Perm c.data ∧
        EnhancedReferenceCollection.sort_by d "stipend" = Except.ok d ∧
        (∀ sub : List StudentReference, sub.Sublist c.data →
          sub.Pairwise (fun a b => stipendKey a ≤ stipendKey b) →
          sub.Sublist d.data)) := by
  constructor
  · intro h
    refine ⟨⟨c.data.mergeSort (fun a b => nameKey a ≤ nameKey b)⟩,
      sort_by_name_ok c h, ?_, ?_, ?_, ?_⟩
    · exact (List.sorted_mergeSort nameLe_trans nameLe_total c.data).imp
        (fun hx => of_decide_eq_true hx)
    · exact List.mergeSort_perm c.data _
    · have hperm := List.mergeSort_perm c.data
        (fun a b => decide (nameKey a ≤ nameKey b))
      have h2 : ∀ r ∈ c.data.mergeSort (fun a b => decide (nameKey a ≤ nameKey b)),
          r.full_name.isSome = true :=
        fun r hr => h r (hperm.mem_iff.mp hr)
      rw [sort_by_name_ok _ h2]
      exact congrArg (fun l => Except.ok (ReferenceCollection.mk l))
        (List.mergeSort_of_sorted
          (List.sorted_mergeSort nameLe_trans nameLe_total c.data))
    · intro sub hsub hpw
      exact List.sublist_mergeSort nameLe_trans nameLe_total
        (hpw.imp (fun hx => decide_eq_true hx)) hsub
  · intro h
    refine ⟨⟨c.data.mergeSort (fun a b => stipendKey a ≤ stipendKey b)⟩,
      sort_by_stipend_ok c h, ?_, ?_, ?_, ?_⟩
    · exact (List.sorted_mergeSort stipendLe_trans stipendLe_total c.data).imp
        (fun hx => of_decide_eq_true hx)
    · exact List.mergeSort_perm c.data _
    · have hperm := List.mergeSort_perm c.data
        (fun a b => decide (stipendKey a ≤ stipendKey b))
      have h2 : ∀ r ∈ c.data.mergeSort (fun a b => decide (stipendKey a ≤ stipendKey b)),
          r.stipend.isSome = true :=
        fun r hr => h r (hperm.mem_iff.mp hr)
      rw [sort_by_stipend_ok _ h2]
      exact congrArg (fun l => Except.ok (ReferenceCollection.mk l))
        (List.mergeSort_of_sorted
          (List.sorted_mergeSort stipendLe_trans stipendLe_total c.data))
    · intro sub hsub hpw
      exact List.sublist_mergeSort stipendLe_trans stipendLe_total
        (hpw.imp (fun hx => decide_eq_true hx)) hsub

/-- C6 witness: the name sort instantiated on a concrete two-record
collection whose names are all present. -/
theorem sort_by_spec_witness :
    ∃ d, EnhancedReferenceCollection.sort_by ⟨[sampleRef2, sampleRef]⟩ "name" =
        Except.ok d ∧
      d.data.Pairwise (fun a b => nameKey a ≤ nameKey b) ∧
      d.data.Perm (ReferenceCollection.mk [sampleRef2, sampleRef]).data ∧
      EnhancedReferenceCollection.sort_by d "name" = Except.ok d ∧
      (∀ sub : List StudentReference,
        sub.Sublist (ReferenceCollection.mk [sampleRef2, sampleRef]).data →
        sub.Pairwise (fun a b => nameKey a ≤ nameKey b) →
        sub.Sublist d.data) :=
  (sort_by_spec ⟨[sampleRef2, sampleRef]⟩).1 (by decide)

/-- A truthy text field is a non-empty `some`. -/
lemma truthyS_shape {o : Option String} (h : truthyS o = true) :
    ∃ s, o = some s := by
  cases o with
  | none => simp [truthyS] at h
  | some s => exact ⟨s, rfl⟩

/-- A truthy stipend is a non-zero `some`. -/
lemma truthyQ_shape {o : Option ℚ} (h : truthyQ o = true) :
    ∃ q, o = some q := by
  cases o with
  | none => simp [truthyQ] at h
  | some q => exact ⟨q, rfl⟩

/-- A record that validates has all five fields present. -/
lemma validate_fields_present (r : StudentReference)
    (hval : r.validate = Except.ok ()) :
    (∃ s, r.id = some s) ∧ (∃ s, r.date = some s) ∧ (∃ s, r.full_name = some s) ∧
    (∃ q, r.stipend = some q) ∧ (∃ s, r.destination = some s) := by
  have hcond : (truthyS r.id && truthyS r.date && truthyS r.full_name &&
      truthyQ r.stipend && truthyS r.destination) = true := by
    by_contra hc
    unfold StudentReference.validate at hval
    rw [if_neg hc] at hval
    cases hval
  simp only [Bool.and_eq_true] at hcond
  obtain ⟨⟨⟨⟨h1, h2⟩, h3⟩, h4⟩, h5⟩ := hcond
  exact ⟨truthyS_shape h1, truthyS_shape h2, truthyS_shape h3,
    truthyQ_shape h4, truthyS_shape h5⟩

/-- Evaluation of `parseRow` on an explicit five-cell row under the fixed header. -/
lemma parseRow_explicit (i d f s ds : String) :
    parseRow csvHeader [i, d, f, s, ds] =
      (match pyFloat s with
        | none => Except.error PyError.valueError
        | some q => Except.ok ⟨some i, some d, some f, some q, some ds⟩) := by
  with_unfolding_all rfl

/-- Evaluation of `loadRow` on an explicit row whose stipend cell parses and whose
record validates. -/
lemma loadRow_explicit (i d f s ds : String) (q : ℚ) (hq : pyFloat s = some q)
    (hv : StudentReference.validate ⟨some i, some d, some f, some q, some ds⟩ =
      Except.ok ()) :
    loadRow csvHeader [i, d, f, s, ds] =
      Except.ok ⟨some i, some d, some f, some q, some ds⟩ := by
  unfold loadRow
  rw [parseRow_explicit, hq]
  dsimp only
  rw [hv]

/-- A valid record whose stipend text round-trips is recovered exactly by
the load step applied to its own serialised row. -/
lemma loadRow_toRow (r : StudentReference)
    (hval : r.validate = Except.ok ())
    (hrt : pyFloat (cellQ r.stipend) = r.stipend) :
    loadRow csvHeader r.toRow = Except.ok r := by
  obtain ⟨⟨i0, hi⟩, ⟨d0, hd⟩, ⟨f0, hf⟩, ⟨q0, hq⟩, ⟨s0, hs⟩⟩ :=
    validate_fields_present r hval
  cases r with
  | mk id date fn st ds =>
    simp only at hi hd hf hq hs
    subst hi hd hf hq hs
    exact loadRow_explicit i0 d0 f0 (floatStr q0) s0 q0 hrt hval

/-- Loading the serialised rows of a list of valid, round-tripping
records appends exactly those records to the accumulator. -/
lemma fromCsvGo_map_toRow (l : List StudentReference) :
    ∀ acc : ReferenceCollection,
      (∀ r ∈ l, r.validate = Except.ok () ∧ pyFloat (cellQ r.stipend) = r.stipend) →
      fromCsvGo csvHeader (l.map StudentReference.toRow) acc =
        Except.ok (some ⟨acc.data ++ l⟩) := by
  induction l with
  | nil =>
    intro acc _
    simp [fromCsvGo]
  | cons r rest ih =>
    intro acc h
    have hr := h r (List.mem_cons_self r rest)
    have hload : loadRow csvHeader r.toRow = Except.ok r := loadRow_toRow r hr.1 hr.2
    simp only [List.map_cons, fromCsvGo, hload]
    rw [ih _ (fun x hx => h x (List.mem_cons_of_mem r hx))]
    simp [ReferenceCollection.add]

/-- C4 amended -- for every non-empty collection of valid records whose
stipend text formatting parses back to the same value, saving to a path
and loading that path returns a collection equal to the original (hence
with the same number of records and field-for-field-equal content). -/
theorem save_then_load_round_trip (c : ReferenceCollection) (prev : Option CsvFile)
    (hne : c.data ≠ [])
    (h : ∀ r ∈ c.data, r.validate = Except.ok () ∧ pyFloat (cellQ r.stipend) = r.stipend) :
    ReferenceCollection.from_csv (c.save_to_csv prev) = Except.ok (some c) := by
  unfold ReferenceCollection.save_to_csv
  rw [if_neg (by simpa [List.isEmpty_iff] using hne)]
  unfold ReferenceCollection.from_csv
  dsimp only
  rw [fromCsvGo_map_toRow c.data ⟨[]⟩ h]
  simp

/-- C4 counterexample -- the claim fails for the empty collection: saving
it writes nothing (`save_to_csv` returns before opening the file), so
loading the still-absent path yields a returned `None`, not an empty
collection. -/
theorem save_then_load_empty_cx :
    ReferenceCollection.from_csv
      ((ReferenceCollection.mk []).save_to_csv none) = Except.ok none := rfl

/-- C4 witness: round trip on a concrete two-record collection. -/
theorem save_then_load_round_trip_witness :
    ReferenceCollection.from_csv
        ((ReferenceCollection.mk [sampleRef, sampleRef2]).save_to_csv none) =
      Except.ok (some ⟨[sampleRef, sampleRef2]⟩) :=
  save_then_load_round_trip ⟨[sampleRef, sampleRef2]⟩ none (by decide)
    (by
      intro r hr
      simp only [List.mem_cons, List.not_mem_nil, or_false] at hr
      rcases hr with rfl | rfl
      · exact ⟨by with_unfolding_all rfl, by with_unfolding_all rfl⟩
      · exact ⟨by with_unfolding_all rfl, by with_unfolding_all rfl⟩)

end LR4
